import Mathlib

/-!
# Verification of the CC1101 transceiver driver (`cc1101/__init__.py`)

Shallow embedding of the driver's protocol/encoding layer in Lean 4.

Conventions used throughout:
* Machine bytes are `ℕ` values; register reads are function arguments, register
  writes and command strobes are recorded in explicit result values or traces.
* Python floats are modelled by `ℚ`: every arithmetic operation the driver
  performs on its float values is exact in IEEE double precision for the
  operand ranges that occur (integer products below `2^53`, divisions whose
  exact result is representable, `log2` evaluated far from integer
  boundaries), so the rational model computes the same values the Python code
  does.
* `assert` statements and `raise`d exceptions become `Option`/`Except`/error
  results.
-/

deriving instance DecidableEq for Except

/-- `CC1101._CRYSTAL_OSCILLATOR_FREQUENCY_HERTZ = 26e6`. -/
def CRYSTAL_OSCILLATOR_FREQUENCY_HERTZ : ℚ := 26000000

/-- `_ReceivedPacket._RSSI_OFFSET_dB = 74`. -/
def RSSI_OFFSET_dB : ℚ := 74

/-- The record assembled by `CC1101._get_received_packet`
(`_ReceivedPacket.__init__`). -/
structure ReceivedPacket where
  data : List ℕ
  rssi_index : ℕ
  checksum_valid : Bool
  link_quality_indicator : ℕ
deriving DecidableEq

/-- `_ReceivedPacket.rssi_dbm`: signed-magnitude decode of the RSSI index,
`(index - 256)/2 - 74` when `index ≥ 128`, else `index/2 - 74`. -/
def ReceivedPacket.rssi_dbm (p : ReceivedPacket) : ℚ :=
  if 128 ≤ p.rssi_index then ((p.rssi_index : ℚ) - 256) / 2 - RSSI_OFFSET_dB
  else (p.rssi_index : ℚ) / 2 - RSSI_OFFSET_dB

/-- `CC1101._get_received_packet`.  `rxbytes` is the value read from the
`RXBYTES` status register; `buffer` is the burst read of exactly `rxbytes`
bytes from the RX FIFO (which the source performs only when `rxbytes ≥ 2`;
when the result is `none`, `buffer` is unused, mirroring that no FIFO read
happens).  Python's `buffer[:-2]` is `take (length - 2)`, and `buffer[-2]`,
`buffer[-1]` are reads at `length - 2` and `length - 1`.  Note the source
masks the trailer with `0b0111111` (six 1-bits). -/
def get_received_packet (rxbytes : ℕ) (buffer : List ℕ) : Option ReceivedPacket :=
  if rxbytes < 2 then none
  else
    some { data := buffer.take (buffer.length - 2)
           rssi_index := buffer.getD (buffer.length - 2) 0
           checksum_valid := buffer.getD (buffer.length - 1) 0 >>> 7 != 0
           link_quality_indicator := buffer.getD (buffer.length - 1) 0 &&& 0b0111111 }

/-- `CC1101._set_modulation_format` applied to the byte read from `MDMCFG2`:
`mdmcfg2 &= ~(modulation_format << 4); mdmcfg2 |= modulation_format << 4`.
For a byte-ranged register value Python's arbitrary-precision complement
agrees with XOR against `0xFF`. -/
def set_modulation_format (mdmcfg2 : ℕ) (modulation_format : ℕ) : ℕ :=
  let m := mdmcfg2 &&& (0xFF ^^^ (modulation_format <<< 4))
  m ||| (modulation_format <<< 4)

/-- `CC1101.enable_manchester_code`: `mdmcfg2 |= 0b1000`. -/
def enable_manchester_code (mdmcfg2 : ℕ) : ℕ :=
  mdmcfg2 ||| 0b1000

/-- `CC1101.set_sync_mode`: `mdmcfg2 &= 0b11111100; mdmcfg2 |= mode`. -/
def set_sync_mode (mdmcfg2 : ℕ) (mode : ℕ) : ℕ :=
  (mdmcfg2 &&& 0b11111100) ||| mode

/-- `CC1101._set_filter_bandwidth`:
`mdmcfg4 &= 0b00001111; mdmcfg4 |= exponent << 6; mdmcfg4 |= mantissa << 4`
(the source asserts `0 ≤ exponent ≤ 0b11` and `0 ≤ mantissa ≤ 0b11`). -/
def set_filter_bandwidth (mdmcfg4 : ℕ) (mantissa : ℕ) (exponent : ℕ) : ℕ :=
  ((mdmcfg4 &&& 0b00001111) ||| (exponent <<< 6)) ||| (mantissa <<< 4)

/-- `CC1101._set_preamble_length_index`:
`mdmcfg1 &= 0b10001111; mdmcfg1 |= index << 4` (asserts `0 ≤ index ≤ 0b111`). -/
def set_preamble_length_index (mdmcfg1 : ℕ) (index : ℕ) : ℕ :=
  (mdmcfg1 &&& 0b10001111) ||| (index <<< 4)

/-- `CC1101._set_power_amplifier_setting_index` applied to the byte read from
`FREND0`.  The source computes `frend0 &= 0b000; frend0 |= setting_index` and
then writes `[setting_index]` — not the merged `frend0` — back to the
register; the returned value is the byte actually written. -/
def set_power_amplifier_setting_index (frend0 : ℕ) (setting_index : ℕ) : ℕ :=
  let _frend0 := (frend0 &&& 0b000) ||| setting_index
  setting_index

/-- `CC1101._disable_data_whitening`: `pktctrl0 &= 0b10111111`. -/
def disable_data_whitening (pktctrl0 : ℕ) : ℕ :=
  pktctrl0 &&& 0b10111111

/-- `CC1101.disable_checksum`: `pktctrl0 &= 0b11111011`. -/
def disable_checksum (pktctrl0 : ℕ) : ℕ :=
  pktctrl0 &&& 0b11111011

/-- `CC1101._set_transceive_mode`: `pktctrl0 &= ~0b00110000; pktctrl0 |= mode << 4`
(`mode` is the 2-bit `_TransceiveMode` value). -/
def set_transceive_mode_byte (pktctrl0 : ℕ) (mode : ℕ) : ℕ :=
  (pktctrl0 &&& (0xFF ^^^ 0b00110000)) ||| (mode <<< 4)

/-- `CC1101.set_packet_length_mode`: `pktctrl0 &= 0b11111100; pktctrl0 |= mode`. -/
def set_packet_length_mode_byte (pktctrl0 : ℕ) (mode : ℕ) : ℕ :=
  (pktctrl0 &&& 0b11111100) ||| mode

/-- Errors surfaced by `CC1101._write_burst`'s two `assert` statements. -/
inductive ProtocolError
  | responseLengthMismatch
  | statusEchoMismatch
deriving DecidableEq

/-- `CC1101._write_burst`, parametrised by the device's `response` to the
transfer of the header byte plus `values`:
`assert len(response) == len(values) + 1` and
`assert all(v == response[0] for v in response[1:])`. -/
def write_burst (values : List ℕ) (response : List ℕ) : Except ProtocolError Unit :=
  if response.length ≠ values.length + 1 then .error .responseLengthMismatch
  else if (response.drop 1).all (fun v => v == response.headD 0) then .ok ()
  else .error .statusEchoMismatch

/-- `_TransceiveMode` (`PKTCTRL0.PKT_FORMAT`). -/
inductive TransceiveMode
  | FIFO
  | SYNCHRONOUS_SERIAL
  | RANDOM_TRANSMISSION
  | ASYNCHRONOUS_SERIAL
deriving DecidableEq

/-- The 2-bit register value of a `_TransceiveMode`. -/
def TransceiveMode.val : TransceiveMode → ℕ
  | .FIFO => 0b00
  | .SYNCHRONOUS_SERIAL => 0b01
  | .RANDOM_TRANSMISSION => 0b10
  | .ASYNCHRONOUS_SERIAL => 0b11

/-- Command strobe addresses used by the driver
(`cc1101.addresses.StrobeAddress`; only the names matter for the traces
below). -/
inductive StrobeAddress
  | SRES
  | SIDLE
  | STX
  | SFTX
  | SRX
deriving DecidableEq

/-- `MainRadioControlStateMachineState` (MARCSTATE). -/
inductive MainRadioControlStateMachineState
  | IDLE
  | STARTCAL
  | BWBOOST
  | FS_LOCK
  | RX
  | RXFIFO_OVERFLOW
  | TX
deriving DecidableEq

/-- Raw MARCSTATE register values of the states. -/
def MainRadioControlStateMachineState.val : MainRadioControlStateMachineState → ℕ
  | .IDLE => 0x01
  | .STARTCAL => 0x08
  | .BWBOOST => 0x09
  | .FS_LOCK => 0x0A
  | .RX => 0x0D
  | .RXFIFO_OVERFLOW => 0x11
  | .TX => 0x13

/-- State-changing bus operations issued by the driver (register reads are
modelled as function arguments instead). -/
inductive DriverOp
  | commandStrobe (addr : StrobeAddress)
  | writeTxFifo (values : List ℕ)
  | setTransceiveModeOp (mode : TransceiveMode)
deriving DecidableEq

/-- Modelled from the spec: the packet-length mode field
(`PKTCTRL0.LENGTH_CONFIG`, "2 bits: fixed / variable / infinite"); the
`cc1101.options` module defining `PacketLengthMode` is not part of the
embedded source file. -/
inductive PacketLengthMode
  | FIXED
  | VARIABLE
  | INFINITE
deriving DecidableEq

/-- Errors raised by `CC1101.transmit`. -/
inductive TransmitError
  | emptyPayload
  | payloadTooLong
  | lengthMismatch
  | notIdle
deriving DecidableEq

/-- The payload validation/framing section of `CC1101.transmit`
(everything before the MARCSTATE check), given the packet-length mode and
`PKTLEN` value read from the device.  In variable mode an empty payload and a
payload longer than `packet_length` raise, and otherwise
`int.to_bytes(len(payload), length=1, byteorder="big")` is prepended; in
fixed mode a payload whose length differs from `packet_length` raises. -/
def transmit_frame (packet_length_mode : PacketLengthMode) (packet_length : ℕ)
    (payload : List ℕ) : Except TransmitError (List ℕ) :=
  if packet_length_mode = .VARIABLE then
    if payload = [] then .error .emptyPayload
    else if payload.length > packet_length then .error .payloadTooLong
    else .ok (payload.length :: payload)
  else if packet_length_mode = .FIXED ∧ payload.length ≠ packet_length then
    .error .lengthMismatch
  else .ok payload

/-- `CC1101.transmit`: after validation/framing, the MARCSTATE read must be
IDLE, and only then are the flush strobe, the TX-FIFO burst write and the
transmit strobe issued, in that order.  The result pairs the list of issued
state-changing bus operations with the error, if any, that was raised; on
every error path the list is empty. -/
def transmit (packet_length_mode : PacketLengthMode) (packet_length : ℕ)
    (marcstate : MainRadioControlStateMachineState) (payload : List ℕ) :
    List DriverOp × Option TransmitError :=
  match transmit_frame packet_length_mode packet_length payload with
  | .error e => ([], some e)
  | .ok framed =>
    if marcstate ≠ .IDLE then ([], some .notIdle)
    else ([.commandStrobe .SFTX, .writeTxFifo framed, .commandStrobe .STX], none)

/-- Python `try: body finally: finalizer` at the trace level: the finalizer's
operations run after the body's whether the body finished normally or raised,
and the body's outcome (value or exception) is then propagated. -/
def pyTryFinally {ε α : Type} (body : List DriverOp × Except ε α)
    (finalizer : List DriverOp) : List DriverOp × Except ε α :=
  (body.1 ++ finalizer, body.2)

/-- `CC1101.asynchronous_transmission`: switch to asynchronous-serial
framing, strobe STX, run the caller's scope body (an arbitrary trace and
outcome), and in a `finally` block strobe SIDLE and restore FIFO framing. -/
def asynchronous_transmission {ε α : Type} (body : List DriverOp × Except ε α) :
    List DriverOp × Except ε α :=
  let entry := [DriverOp.setTransceiveModeOp .ASYNCHRONOUS_SERIAL,
                DriverOp.commandStrobe .STX]
  let result := pyTryFinally body
    [DriverOp.commandStrobe .SIDLE, DriverOp.setTransceiveModeOp .FIFO]
  (entry ++ result.1, result.2)

/-- Configuration register addresses used by the driver (only the names
matter here). -/
inductive ConfigurationRegisterAddress
  | MDMCFG4
  | MDMCFG3
  | MDMCFG2
  | MDMCFG1
  | FREND0
  | PKTCTRL0
  | PKTLEN
  | FREQ2
  | SYNC1
deriving DecidableEq

/-- Failure of a driver-level `assert` on a caller-supplied argument. -/
inductive SetterError
  | assertionFailed
deriving DecidableEq

/-- `CC1101.set_packet_length_bytes`:
`assert 1 <= packet_length <= 255`, then write the single byte
`packet_length` to `PKTLEN`.  The result is the burst write issued. -/
def set_packet_length_bytes (packet_length : ℤ) :
    Except SetterError (ConfigurationRegisterAddress × List ℕ) :=
  if 1 ≤ packet_length ∧ packet_length ≤ 255 then .ok (.PKTLEN, [packet_length.toNat])
  else .error .assertionFailed

/-- Python's built-in `round` on an exact value: round half to even. -/
def pyRound (q : ℚ) : ℤ :=
  if q - ⌊q⌋ < 1/2 then ⌊q⌋
  else if 1/2 < q - ⌊q⌋ then ⌊q⌋ + 1
  else if ⌊q⌋ % 2 = 0 then ⌊q⌋ else ⌊q⌋ + 1

/-- `CC1101._symbol_rate_floating_point_to_real`:
`(256 + mantissa) * 2**exponent * f_xosc / 2**28`. -/
def symbol_rate_floating_point_to_real (mantissa exponent : ℕ) : ℚ :=
  (256 + (mantissa : ℚ)) * 2 ^ exponent * CRYSTAL_OSCILLATOR_FREQUENCY_HERTZ / 2 ^ 28

/-- The carry step of `_symbol_rate_real_to_floating_point`:
`if mantissa == 256: exponent += 1; mantissa = 0`. -/
def symbol_rate_carry (mantissa exponent : ℤ) : ℤ × ℤ :=
  if mantissa = 256 then (0, exponent + 1) else (mantissa, exponent)

/-- The trailing `assert 0 < exponent <= 2**4` and `assert mantissa <= 2**8`
of `_symbol_rate_real_to_floating_point` (`none` models a failed assert). -/
def symbol_rate_checks (me : ℤ × ℤ) : Option (ℤ × ℤ) :=
  if 0 < me.2 ∧ me.2 ≤ 2 ^ 4 ∧ me.1 ≤ 2 ^ 8 then some me else none

/-- `CC1101._symbol_rate_real_to_floating_point`:
`exponent = floor(log2(real / f_xosc) + 20)` (here `Int.log 2 _ + 20`, since
the offset by the integer 20 commutes with `floor`),
`mantissa = round(real * 2**28 / f_xosc / 2**exponent - 256)`, carry
`mantissa == 256` into `(0, exponent + 1)`; `None` models a failed `assert`
(`real > 0` before, `0 < exponent ≤ 2**4` and `mantissa ≤ 2**8` after). -/
def symbol_rate_real_to_floating_point (real : ℚ) : Option (ℤ × ℤ) :=
  if real ≤ 0 then none
  else
    symbol_rate_checks (symbol_rate_carry
      (pyRound (real * 2 ^ 28 / CRYSTAL_OSCILLATOR_FREQUENCY_HERTZ
        / (2 : ℚ) ^ (Int.log 2 (real / CRYSTAL_OSCILLATOR_FREQUENCY_HERTZ) + 20) - 256))
      (Int.log 2 (real / CRYSTAL_OSCILLATOR_FREQUENCY_HERTZ) + 20))

/-- `CC1101._FREQUENCY_CONTROL_WORD_HERTZ_FACTOR = f_xosc / 2**16`. -/
def FREQUENCY_CONTROL_WORD_HERTZ_FACTOR : ℚ :=
  CRYSTAL_OSCILLATOR_FREQUENCY_HERTZ / 2 ^ 16

/-- Python `int.from_bytes(control_word, byteorder="big", signed=False)`. -/
def intFromBytesBE (bs : List ℕ) : ℕ :=
  bs.foldl (fun acc b => acc * 256 + b) 0

/-- Python `n.to_bytes(length=3, byteorder="big", signed=False)` for
`0 ≤ n < 2^24` (outside that range `to_bytes` raises; see the caller). -/
def intToBytesBE3 (n : ℕ) : List ℕ :=
  [(n >>> 16) &&& 0xFF, (n >>> 8) &&& 0xFF, n &&& 0xFF]

/-- `CC1101._frequency_control_word_to_hertz`. -/
def frequency_control_word_to_hertz (control_word : List ℕ) : ℚ :=
  (intFromBytesBE control_word : ℚ) * FREQUENCY_CONTROL_WORD_HERTZ_FACTOR

/-- `CC1101._hertz_to_frequency_control_word`:
`round(hertz / factor).to_bytes(length=3, byteorder="big", signed=False)`;
`none` models the `OverflowError` that `to_bytes` raises when the rounded
word is negative or does not fit in 3 bytes. -/
def hertz_to_frequency_control_word (hertz : ℚ) : Option (List ℕ) :=
  let word := pyRound (hertz / FREQUENCY_CONTROL_WORD_HERTZ_FACTOR)
  if 0 ≤ word ∧ word < 2 ^ 24 then some (intToBytesBE3 word.toNat) else none

/-- The preamble byte count encoded by a 3-bit `MDMCFG1.NUM_PREAMBLE` index:
`2 ** (index >> 1) * (2 + (index & 0b1))` (the body of
`CC1101.get_preamble_length_bytes`). -/
def preamble_length_of_index (index : ℕ) : ℕ :=
  2 ^ (index >>> 1) * (2 + (index &&& 0b1))

/-- `CC1101.get_preamble_length_bytes` applied to the byte read from
`MDMCFG1`: `index = (mdmcfg1 >> 4) & 0b111`. -/
def get_preamble_length_bytes (mdmcfg1 : ℕ) : ℕ :=
  preamble_length_of_index ((mdmcfg1 >>> 4) &&& 0b111)

/-- The exact base-2 logarithm of a rational, when it exists:
`some k` iff `q = 2^k`.  Python computes `math.log2(q)` as a float and
`set_preamble_length_bytes` then tests `(2*log2(q) + c).is_integer()`; for a
rational `q` the real `log2 q` is an integer or irrational (`2^(k/2)` with
odd `k` is irrational), so the test succeeds exactly when `q` is a power of
two, which is what this function decides. -/
def ratExactLog2 (q : ℚ) : Option ℤ :=
  if 0 < q ∧ (2 : ℚ) ^ Int.log 2 q = q then some (Int.log 2 q) else none

/-- Errors raised by `CC1101.set_preamble_length_bytes`. -/
inductive PreambleError
  | invalidLength
  | unsupportedLength
deriving DecidableEq

/-- `CC1101.set_preamble_length_bytes`: reject `length < 1`; compute
`index = 2*log2(length/3) + 1` when `length` is a multiple of 3, else
`index = 2*log2(length/2)`; reject a non-integer index (`none` from
`ratExactLog2`) and an index outside `0..7`; otherwise hand `int(index)` to
`_set_preamble_length_index`, whose written index is returned. -/
def set_preamble_length_bytes (length : ℤ) : Except PreambleError ℕ :=
  if length < 1 then .error .invalidLength
  else
    (if length % 3 = 0
      then (ratExactLog2 ((length : ℚ) / 3)).map (fun k => 2 * k + 1)
      else (ratExactLog2 ((length : ℚ) / 2)).map (fun k => 2 * k)).elim
      (.error .unsupportedLength)
      (fun index =>
        if index < 0 ∨ 7 < index then .error .unsupportedLength
        else .ok index.toNat)

/-! ## Helper lemmas -/

theorem pyRound_intCast (n : ℤ) : pyRound (n : ℚ) = n := by
  unfold pyRound
  norm_num

theorem pyRound_abs_le (q : ℚ) : |(pyRound q : ℚ) - q| ≤ 1/2 := by
  have h0 : 0 ≤ q - ⌊q⌋ := by have := Int.floor_le q; linarith
  have h1 : q - ⌊q⌋ < 1 := by have := Int.lt_floor_add_one q; linarith
  unfold pyRound
  split
  · rw [abs_le]; constructor <;> push_cast <;> linarith
  · split
    · rw [abs_le]; constructor <;> push_cast <;> linarith
    · split <;> (rw [abs_le]; constructor <;> push_cast <;> linarith)

/-- Normalised form of `Int.log_zpow` at base 2 over `ℚ`. -/
theorem int_log2_zpow (z : ℤ) : Int.log 2 ((2:ℚ) ^ z) = z := by
  have h := Int.log_zpow (R := ℚ) (b := 2) (by norm_num) z
  push_cast at h
  exact h

/-- Uniqueness characterisation of `Int.log 2` on `ℚ`. -/
theorem int_log2_eq_of {q : ℚ} {z : ℤ} (h1 : (2:ℚ) ^ z ≤ q) (h2 : q < (2:ℚ) ^ (z + 1)) :
    Int.log 2 q = z := by
  have hz : (0:ℚ) < (2:ℚ) ^ z := zpow_pos (by norm_num) z
  have hq : 0 < q := lt_of_lt_of_le hz h1
  have hle : z ≤ Int.log 2 q := by
    have hmono := Int.log_mono_right (b := 2) hz h1
    rwa [int_log2_zpow] at hmono
  have hlt : Int.log 2 q < z + 1 := by
    by_contra hcon
    push_neg at hcon
    have h3 : (2:ℚ) ^ (z + 1) ≤ (2:ℚ) ^ Int.log 2 q :=
      zpow_le_zpow_right₀ (by norm_num) hcon
    have h4 := Int.zpow_log_le_self (b := 2) (R := ℚ) (by norm_num) hq
    push_cast at h4
    linarith
  omega

theorem ratExactLog2_eq_some {q : ℚ} {k : ℤ} (h : ratExactLog2 q = some k) :
    (2:ℚ) ^ k = q := by
  unfold ratExactLog2 at h
  split at h
  · rename_i hcond
    cases h
    exact hcond.2
  · cases h

/-- `ratExactLog2` recognises an exact power of two. -/
theorem ratExactLog2_zpow (z : ℤ) : ratExactLog2 ((2:ℚ) ^ z) = some z := by
  unfold ratExactLog2
  rw [int_log2_zpow]
  exact if_pos ⟨zpow_pos (by norm_num) z, rfl⟩

theorem intFromBytesBE3_intToBytesBE3 {n : ℕ} (h : n < 2 ^ 24) :
    intFromBytesBE (intToBytesBE3 n) = n := by
  unfold intFromBytesBE intToBytesBE3
  simp only [List.foldl]
  rw [Nat.shiftRight_eq_div_pow, Nat.shiftRight_eq_div_pow]
  have h16 : n / 2 ^ 16 &&& 0xFF = n / 2 ^ 16 % 256 := Nat.and_pow_two_sub_one_eq_mod _ 8
  have h8 : n / 2 ^ 8 &&& 0xFF = n / 2 ^ 8 % 256 := Nat.and_pow_two_sub_one_eq_mod _ 8
  have h0 : n &&& 0xFF = n % 256 := Nat.and_pow_two_sub_one_eq_mod _ 8
  rw [h16, h8, h0]
  omega

/-! ## Claim theorems -/

/-- C2: the claim that every register-bitfield setter preserves all bits of
the rewritten byte other than its own target bitfield fails on the
power-amplifier setter: `_set_power_amplifier_setting_index` writes
`setting_index` verbatim, discarding the byte it read (and its `0b000` mask
clears the whole byte anyway).  At the prior register value `0b00010000`
(the FREND0 reset value) with the valid 3-bit index 1, the byte written back
is `0b00000001`, which differs from the byte read at bit 4, outside the
3-bit `PA_POWER` field `0b00000111`.  The spec itself flags this as a latent
defect, so the claim is right and the code is the slip. -/
theorem c2_power_amplifier_setter_bug :
    set_power_amplifier_setting_index 0b00010000 1 = 0b00000001
  ∧ set_power_amplifier_setting_index 0b00010000 1 &&& 0b11111000
      ≠ (0b00010000 : ℕ) &&& 0b11111000 := by
  decide

set_option maxRecDepth 4000 in
/-- All bitfield setters other than the power-amplifier one do preserve
every bit outside their target field, for every prior byte value and every
valid field value. -/
theorem setters_preserve_unrelated_bits :
    ∀ reg < 256,
      (∀ fmt ≤ 0b111, set_modulation_format reg fmt &&& 0b10001111 = reg &&& 0b10001111)
    ∧ (∀ mode ≤ 0b11, set_sync_mode reg mode &&& 0b11111100 = reg &&& 0b11111100)
    ∧ (∀ mode ≤ 0b11, set_transceive_mode_byte reg mode &&& 0b11001111 = reg &&& 0b11001111)
    ∧ (∀ mode ≤ 0b11, set_packet_length_mode_byte reg mode &&& 0b11111100 = reg &&& 0b11111100)
    ∧ (∀ idx ≤ 0b111, set_preamble_length_index reg idx &&& 0b10001111 = reg &&& 0b10001111)
    ∧ (∀ m ≤ 0b11, ∀ e ≤ 0b11, set_filter_bandwidth reg m e &&& 0b00001111 = reg &&& 0b00001111)
    ∧ enable_manchester_code reg &&& 0b11110111 = reg &&& 0b11110111
    ∧ disable_data_whitening reg &&& 0b10111111 = reg &&& 0b10111111
    ∧ disable_checksum reg &&& 0b11111011 = reg &&& 0b11111011 := by
  decide

/-- C1, counterexample: the claim as stated is false on the code at concrete
inputs.  On the claim's own example `[0x41, 0x42, 0x43, 0x80, 0x2A]` the
CRC-valid flag comes out `false`, not `true` (the top bit of `0x2A` is 0, so
the example contradicts the claim's own top-bit rule), and the link-quality
indicator is not the low 7 bits of the trailer byte: a trailer byte `0x7F`
yields `0x3F`, because the source masks with `0b0111111` (six 1-bits). -/
theorem c1_counterexample :
    (get_received_packet 5 [0x41, 0x42, 0x43, 0x80, 0x2A]).map ReceivedPacket.checksum_valid
      = some false
  ∧ (get_received_packet 3 [0x41, 0x80, 0x7F]).map ReceivedPacket.link_quality_indicator
      = some 0x3F
  ∧ (0x7F : ℕ) &&& 0b1111111 = 0x7F
  ∧ (0x3F : ℕ) ≠ 0x7F := by
  refine ⟨?_, ?_, by decide, by decide⟩ <;> decide

/-- C1, amended: receiving with RX-byte-count `n < 2` yields no packet;
otherwise the burst-read buffer of `n` bytes parses into payload = all but
the last two bytes, RSSI index = second-to-last byte (decoded to dBm as
`(index-256)/2 - 74` when `index ≥ 128`, else `index/2 - 74`), CRC-valid =
top bit of the last byte, and link quality = the low *6* bits of the last
byte; the example bytes yield payload `0x41 0x42 0x43`, CRC-valid *false*,
link quality `0x2A` and RSSI −138 dBm. -/
theorem c1_received_packet_amended (buffer : List ℕ) (h2 : 2 ≤ buffer.length) :
    (∀ rx bf, rx < 2 → get_received_packet rx bf = none)
  ∧ get_received_packet buffer.length buffer =
      some { data := buffer.dropLast.dropLast
             rssi_index := buffer.dropLast.getLastD 0
             checksum_valid := buffer.getLastD 0 >>> 7 != 0
             link_quality_indicator := buffer.getLastD 0 &&& 0b0111111 }
  ∧ get_received_packet 5 [0x41, 0x42, 0x43, 0x80, 0x2A] =
      some { data := [0x41, 0x42, 0x43], rssi_index := 0x80,
             checksum_valid := false, link_quality_indicator := 0x2A }
  ∧ (get_received_packet 5 [0x41, 0x42, 0x43, 0x80, 0x2A]).map ReceivedPacket.rssi_dbm
      = some (-138)
  ∧ (∀ p : ReceivedPacket, 128 ≤ p.rssi_index →
      p.rssi_dbm = ((p.rssi_index : ℚ) - 256) / 2 - 74)
  ∧ (∀ p : ReceivedPacket, p.rssi_index < 128 →
      p.rssi_dbm = (p.rssi_index : ℚ) / 2 - 74) := by
  refine ⟨?_, ?_, by decide, ?_, ?_, ?_⟩
  · intro rx bf hrx
    unfold get_received_packet
    rw [if_pos hrx]
  · unfold get_received_packet
    rw [if_neg (show ¬buffer.length < 2 by omega)]
    have hdata : buffer.take (buffer.length - 2) = buffer.dropLast.dropLast := by
      simp only [List.dropLast_eq_take, List.length_take, List.take_take]
      congr 1
      omega
    have hrssi : buffer.getD (buffer.length - 2) 0 = buffer.dropLast.getLastD 0 := by
      have hidx : buffer.length - 1 - 1 = buffer.length - 2 := by omega
      rw [List.getD_eq_getElem?_getD, List.getLastD_eq_getLast?,
        List.getLast?_eq_getElem?, List.getElem?_dropLast, List.length_dropLast, hidx,
        if_pos (show buffer.length - 2 < buffer.length - 1 by omega)]
    have htrailer : buffer.getD (buffer.length - 1) 0 = buffer.getLastD 0 := by
      rw [List.getD_eq_getElem?_getD, List.getLastD_eq_getLast?, List.getLast?_eq_getElem?]
    rw [hdata, hrssi, htrailer]
  · have h : get_received_packet 5 [0x41, 0x42, 0x43, 0x80, 0x2A] =
        some { data := [0x41, 0x42, 0x43], rssi_index := 0x80,
               checksum_valid := false, link_quality_indicator := 0x2A } := by decide
    rw [h, Option.map_some']
    unfold ReceivedPacket.rssi_dbm RSSI_OFFSET_dB
    norm_num
  · intro p hp
    unfold ReceivedPacket.rssi_dbm RSSI_OFFSET_dB
    rw [if_pos hp]
  · intro p hp
    unfold ReceivedPacket.rssi_dbm RSSI_OFFSET_dB
    rw [if_neg (by omega)]

/-- Witness for the amended C1 at the buffer `[0x41, 0x42, 0x43, 0x80, 0x2A]`. -/
theorem c1_received_packet_amended_witness :
    2 ≤ ([0x41, 0x42, 0x43, 0x80, 0x2A] : List ℕ).length
  ∧ get_received_packet ([0x41, 0x42, 0x43, 0x80, 0x2A] : List ℕ).length
        [0x41, 0x42, 0x43, 0x80, 0x2A] =
      some { data := ([0x41, 0x42, 0x43, 0x80, 0x2A] : List ℕ).dropLast.dropLast
             rssi_index := ([0x41, 0x42, 0x43, 0x80, 0x2A] : List ℕ).dropLast.getLastD 0
             checksum_valid := ([0x41, 0x42, 0x43, 0x80, 0x2A] : List ℕ).getLastD 0 >>> 7 != 0
             link_quality_indicator :=
               ([0x41, 0x42, 0x43, 0x80, 0x2A] : List ℕ).getLastD 0 &&& 0b0111111 } :=
  ⟨by decide, (c1_received_packet_amended [0x41, 0x42, 0x43, 0x80, 0x2A] (by decide)).2.1⟩

/-- C3: variable-mode transmit rejects an empty payload and a payload longer
than the configured maximum `L`, and otherwise prepends exactly one
length-prefix byte equal to the payload's length (never zero, and a valid
byte since `L ≤ 255`); fixed-mode transmit rejects any payload whose length
differs from `L` and writes a payload of length exactly `L` verbatim; a
10-byte payload with `L = 20` produces an 11-byte FIFO write whose first
byte is 10. -/
theorem c3_transmit_framing (L : ℕ) (payload : List ℕ) (hL : L ≤ 255) :
    transmit_frame .VARIABLE L [] = .error .emptyPayload
  ∧ (L < payload.length → transmit_frame .VARIABLE L payload = .error .payloadTooLong)
  ∧ (payload ≠ [] → payload.length ≤ L →
      transmit_frame .VARIABLE L payload = .ok (payload.length :: payload)
      ∧ payload.length ≠ 0 ∧ payload.length ≤ 255
      ∧ (payload.length :: payload).length = payload.length + 1)
  ∧ (payload.length ≠ L → transmit_frame .FIXED L payload = .error .lengthMismatch)
  ∧ (payload.length = L → transmit_frame .FIXED L payload = .ok payload)
  ∧ transmit .VARIABLE 20 .IDLE (List.replicate 10 0xAB) =
      ([.commandStrobe .SFTX, .writeTxFifo (10 :: List.replicate 10 0xAB),
        .commandStrobe .STX], none)
  ∧ (10 :: List.replicate 10 0xAB).length = 11 := by
  refine ⟨by simp [transmit_frame], ?_, ?_, ?_, ?_, by decide, by decide⟩
  · intro hlong
    have hne : payload ≠ [] := by
      rintro rfl
      simp at hlong
    unfold transmit_frame
    rw [if_pos rfl, if_neg hne, if_pos (show payload.length > L by omega)]
  · intro hne hlen
    refine ⟨?_, by simp [hne], by omega, by simp⟩
    unfold transmit_frame
    rw [if_pos rfl, if_neg hne, if_neg (show ¬payload.length > L by omega)]
  · intro hne
    unfold transmit_frame
    rw [if_neg (show ¬(PacketLengthMode.FIXED = .VARIABLE) by decide), if_pos ⟨rfl, hne⟩]
  · intro heq
    unfold transmit_frame
    rw [if_neg (show ¬(PacketLengthMode.FIXED = .VARIABLE) by decide),
      if_neg (show ¬(PacketLengthMode.FIXED = .FIXED ∧ payload.length ≠ L) by simp [heq])]

/-- Witness for C3 at `L = 20`, payload `[7, 7]`. -/
theorem c3_transmit_framing_witness :
    (20 : ℕ) ≤ 255
  ∧ (transmit_frame .VARIABLE 20 [] = .error .emptyPayload
  ∧ (20 < ([7, 7] : List ℕ).length → transmit_frame .VARIABLE 20 [7, 7] = .error .payloadTooLong)
  ∧ (([7, 7] : List ℕ) ≠ [] → ([7, 7] : List ℕ).length ≤ 20 →
      transmit_frame .VARIABLE 20 [7, 7] = .ok (([7, 7] : List ℕ).length :: [7, 7])
      ∧ ([7, 7] : List ℕ).length ≠ 0 ∧ ([7, 7] : List ℕ).length ≤ 255
      ∧ (([7, 7] : List ℕ).length :: [7, 7]).length = ([7, 7] : List ℕ).length + 1)
  ∧ (([7, 7] : List ℕ).length ≠ 20 → transmit_frame .FIXED 20 [7, 7] = .error .lengthMismatch)
  ∧ (([7, 7] : List ℕ).length = 20 → transmit_frame .FIXED 20 [7, 7] = .ok [7, 7])
  ∧ transmit .VARIABLE 20 .IDLE (List.replicate 10 0xAB) =
      ([.commandStrobe .SFTX, .writeTxFifo (10 :: List.replicate 10 0xAB),
        .commandStrobe .STX], none)
  ∧ (10 :: List.replicate 10 0xAB).length = 11) :=
  ⟨by decide, c3_transmit_framing 20 [7, 7] (by decide)⟩

/-- C4: if the payload passes the length/mode validation but the MARCSTATE
read is not IDLE, `transmit` fails with the not-idle precondition error and
issues no bus operation at all — no TX FIFO write, no flush strobe, no
transmit strobe. -/
theorem c4_transmit_requires_idle (mode : PacketLengthMode) (L : ℕ)
    (marc : MainRadioControlStateMachineState) (payload framed : List ℕ)
    (hframe : transmit_frame mode L payload = .ok framed)
    (hmarc : marc ≠ .IDLE) :
    transmit mode L marc payload = ([], some .notIdle) := by
  simp [transmit, hframe, hmarc]

/-- Witness for C4: variable mode, `L = 5`, payload `[1]`, MARCSTATE `TX`. -/
theorem c4_transmit_requires_idle_witness :
    transmit_frame .VARIABLE 5 [1] = .ok [1, 1]
  ∧ (MainRadioControlStateMachineState.TX ≠ .IDLE)
  ∧ transmit .VARIABLE 5 .TX [1] = ([], some .notIdle) :=
  ⟨by decide, by decide,
    c4_transmit_requires_idle .VARIABLE 5 .TX [1] [1, 1] (by decide) (by decide)⟩

/-- C8: a burst write completes normally exactly when the response has
length `len(values) + 1` and every byte after the leading status byte echoes
that status byte; it raises a protocol error exactly when the response
length is wrong or some echo differs. -/
theorem c8_write_burst_echo_check (values response : List ℕ) :
    (write_burst values response = .ok () ↔
      response.length = values.length + 1 ∧ ∀ v ∈ response.drop 1, v = response.headD 0)
  ∧ ((∃ e, write_burst values response = .error e) ↔
      response.length ≠ values.length + 1 ∨ ∃ v ∈ response.drop 1, v ≠ response.headD 0) := by
  unfold write_burst
  by_cases h1 : response.length = values.length + 1
  · by_cases h2 : (response.drop 1).all (fun v => v == response.headD 0) = true
    · rw [if_neg (not_not_intro h1), if_pos h2]
      simp only [List.all_eq_true, beq_iff_eq] at h2
      refine ⟨⟨fun _ => ⟨h1, h2⟩, fun _ => rfl⟩, ?_, ?_⟩
      · rintro ⟨e, he⟩
        cases he
      · rintro (hc | ⟨v, hv, hne⟩)
        · exact absurd h1 hc
        · exact absurd (h2 v hv) hne
    · rw [if_neg (not_not_intro h1), if_neg h2]
      simp only [List.all_eq_true, beq_iff_eq] at h2
      push_neg at h2
      obtain ⟨v, hv, hne⟩ := h2
      refine ⟨⟨fun h => Except.noConfusion h, fun ⟨_, hall⟩ => absurd (hall v hv) hne⟩,
        fun _ => Or.inr ⟨v, hv, hne⟩, fun _ => ⟨.statusEchoMismatch, rfl⟩⟩
  · rw [if_pos h1]
    refine ⟨⟨fun h => Except.noConfusion h, fun ⟨heq, _⟩ => absurd heq h1⟩,
      fun _ => Or.inl h1, fun _ => ⟨.responseLengthMismatch, rfl⟩⟩

/-- C9: on every exit path of the scoped asynchronous-transmission
capability — the body finishing normally or raising — the release actions
run unconditionally and in order (SIDLE strobe, then restore FIFO framing),
and the body's outcome is propagated unchanged. -/
theorem c9_asynchronous_transmission_release {ε α : Type}
    (bodyOps : List DriverOp) (outcome : Except ε α) :
    (asynchronous_transmission (bodyOps, outcome)).1 =
      [DriverOp.setTransceiveModeOp .ASYNCHRONOUS_SERIAL, DriverOp.commandStrobe .STX]
        ++ bodyOps
        ++ [DriverOp.commandStrobe .SIDLE, DriverOp.setTransceiveModeOp .FIFO]
  ∧ (asynchronous_transmission (bodyOps, outcome)).2 = outcome := by
  constructor
  · simp [asynchronous_transmission, pyTryFinally]
  · rfl

/-- C10: `set_packet_length_bytes` accepts exactly `1 ≤ packet_length ≤ 255`;
outside that range it fails (on its `assert`) before any bus write is
issued, and inside it the single byte `packet_length` is written to `PKTLEN`
unchanged. -/
theorem c10_set_packet_length_bytes_range (n : ℤ) :
    ((∃ w, set_packet_length_bytes n = .ok w) ↔ 1 ≤ n ∧ n ≤ 255)
  ∧ (1 ≤ n → n ≤ 255 → set_packet_length_bytes n = .ok (.PKTLEN, [n.toNat]))
  ∧ (¬(1 ≤ n ∧ n ≤ 255) → set_packet_length_bytes n = .error .assertionFailed) := by
  unfold set_packet_length_bytes
  refine ⟨?_, ?_, ?_⟩
  · split
    · rename_i h
      exact ⟨fun _ => h, fun _ => ⟨_, rfl⟩⟩
    · rename_i h
      exact ⟨fun ⟨w, hw⟩ => Except.noConfusion hw, fun hc => absurd hc h⟩
  · intro hel her
    rw [if_pos ⟨hel, her⟩]
  · intro h
    rw [if_neg h]

/-- Witness for C10 at `n = 17`. -/
theorem c10_witness :
    (1:ℤ) ≤ 17 ∧ (17:ℤ) ≤ 255 ∧
    set_packet_length_bytes 17 = .ok (.PKTLEN, [(17:ℤ).toNat]) :=
  ⟨by decide, by decide,
    (c10_set_packet_length_bytes_range 17).2.1 (by decide) (by decide)⟩

/-- The `Int.log` value the symbol-rate encoder computes for a decoded pair:
`2^8 ≤ 256 + mantissa < 2^9` pins the logarithm. -/
theorem int_log2_key (m e : ℕ) (hm : m ≤ 255) :
    Int.log 2 ((256 + (m:ℚ)) * 2 ^ e / 2 ^ 28) = (e:ℤ) - 20 := by
  have hm0 : (0:ℚ) ≤ (m:ℚ) := Nat.cast_nonneg m
  have hm255 : (m:ℚ) ≤ 255 := by exact_mod_cast hm
  have h2e : (0:ℚ) < 2 ^ e := by positivity
  apply int_log2_eq_of
  · rw [zpow_sub₀ (by norm_num : (2:ℚ) ≠ 0)]
    rw [show ((e:ℤ)) = ((e:ℕ):ℤ) from rfl, zpow_natCast]
    rw [show ((2:ℚ) ^ (20:ℤ)) = 2 ^ (20:ℕ) from by norm_num]
    rw [div_le_div_iff₀ (by positivity) (by positivity)]
    have hpow : (256:ℚ) * 2 ^ 20 = 2 ^ 28 := by norm_num
    have hprod : (0:ℚ) ≤ (m:ℚ) * (2 ^ e * 2 ^ 20) := by positivity
    nlinarith
  · rw [show ((e:ℤ) - 20 + 1) = (e:ℤ) - 19 from by ring]
    rw [zpow_sub₀ (by norm_num : (2:ℚ) ≠ 0)]
    rw [show ((e:ℤ)) = ((e:ℕ):ℤ) from rfl, zpow_natCast]
    rw [show ((2:ℚ) ^ (19:ℤ)) = 2 ^ (19:ℕ) from by norm_num]
    rw [div_lt_div_iff₀ (by positivity) (by positivity)]
    have hpow : (512:ℚ) * 2 ^ 19 = 2 ^ 28 := by norm_num
    have hee : (0:ℚ) < 2 ^ e * 2 ^ 19 := by positivity
    nlinarith

/-- C5: encoding the decoded baud value of any valid symbol-rate pair
(`mantissa ≤ 255`, `1 ≤ exponent ≤ 16`) reproduces exactly the same pair,
all asserts passing (the `mantissa == 256` carry branch is not taken on
these inputs, since the recovered mantissa equals the original `≤ 255`). -/
theorem c5_symbol_rate_roundtrip (mantissa exponent : ℕ)
    (hm : mantissa ≤ 255) (he1 : 1 ≤ exponent) (he2 : exponent ≤ 16) :
    symbol_rate_real_to_floating_point
        (symbol_rate_floating_point_to_real mantissa exponent)
      = some ((mantissa : ℤ), (exponent : ℤ)) := by
  have hC : (0:ℚ) < CRYSTAL_OSCILLATOR_FREQUENCY_HERTZ := by
    norm_num [CRYSTAL_OSCILLATOR_FREQUENCY_HERTZ]
  have hCne : CRYSTAL_OSCILLATOR_FREQUENCY_HERTZ ≠ 0 := ne_of_gt hC
  have hm0 : (0:ℚ) ≤ (mantissa:ℚ) := Nat.cast_nonneg mantissa
  have h2e : (0:ℚ) < 2 ^ exponent := by positivity
  have hreal_pos : 0 < symbol_rate_floating_point_to_real mantissa exponent := by
    unfold symbol_rate_floating_point_to_real
    positivity
  have hdiv : symbol_rate_floating_point_to_real mantissa exponent
      / CRYSTAL_OSCILLATOR_FREQUENCY_HERTZ
      = (256 + (mantissa:ℚ)) * 2 ^ exponent / 2 ^ 28 := by
    unfold symbol_rate_floating_point_to_real
    field_simp
    ring
  have hlogfull : Int.log 2 (symbol_rate_floating_point_to_real mantissa exponent
      / CRYSTAL_OSCILLATOR_FREQUENCY_HERTZ) + 20 = (exponent:ℤ) := by
    rw [hdiv, int_log2_key mantissa exponent hm]
    ring
  have hmantarg : symbol_rate_floating_point_to_real mantissa exponent * 2 ^ 28
      / CRYSTAL_OSCILLATOR_FREQUENCY_HERTZ / (2:ℚ) ^ ((exponent:ℕ):ℤ) - 256
      = (mantissa:ℚ) := by
    rw [zpow_natCast]
    unfold symbol_rate_floating_point_to_real
    field_simp
  unfold symbol_rate_real_to_floating_point
  rw [if_neg (not_le.mpr hreal_pos)]
  rw [hlogfull]
  rw [show ((exponent:ℤ)) = ((exponent:ℕ):ℤ) from rfl]
  rw [hmantarg]
  rw [show ((mantissa:ℚ)) = (((mantissa:ℤ)):ℚ) from by push_cast; rfl]
  rw [pyRound_intCast]
  unfold symbol_rate_carry
  rw [if_neg (show ¬((mantissa:ℤ) = 256) from by omega)]
  unfold symbol_rate_checks
  rw [if_pos (show (0:ℤ) < (exponent:ℤ) ∧ (exponent:ℤ) ≤ 2 ^ 4 ∧ (mantissa:ℤ) ≤ 2 ^ 8 from by
    refine ⟨by exact_mod_cast he1, by exact_mod_cast (by omega : exponent ≤ 16), by
      exact_mod_cast (by omega : mantissa ≤ 256)⟩)]

/-- Witness for C5 at `(mantissa, exponent) = (0, 1)`. -/
theorem c5_symbol_rate_roundtrip_witness :
    (0:ℕ) ≤ 255 ∧ 1 ≤ (1:ℕ) ∧ (1:ℕ) ≤ 16
  ∧ symbol_rate_real_to_floating_point (symbol_rate_floating_point_to_real 0 1)
      = some (((0:ℕ) : ℤ), ((1:ℕ) : ℤ)) :=
  ⟨by decide, by decide, by decide,
    c5_symbol_rate_roundtrip 0 1 (by decide) (by decide) (by decide)⟩

/-- C6: for every frequency whose rounded control word is a valid 24-bit
word, the encoder succeeds and decoding the encoded word lands within one
least-significant-bit quantisation step `f_xosc / 2^16` of the requested
frequency. -/
theorem c6_frequency_roundtrip (hertz : ℚ)
    (h0 : 0 ≤ pyRound (hertz / FREQUENCY_CONTROL_WORD_HERTZ_FACTOR))
    (h1 : pyRound (hertz / FREQUENCY_CONTROL_WORD_HERTZ_FACTOR) < 2 ^ 24) :
    ∃ w, hertz_to_frequency_control_word hertz = some w
      ∧ |frequency_control_word_to_hertz w - hertz|
          ≤ CRYSTAL_OSCILLATOR_FREQUENCY_HERTZ / 2 ^ 16 := by
  have hF : (0:ℚ) < FREQUENCY_CONTROL_WORD_HERTZ_FACTOR := by
    norm_num [FREQUENCY_CONTROL_WORD_HERTZ_FACTOR, CRYSTAL_OSCILLATOR_FREQUENCY_HERTZ]
  refine ⟨intToBytesBE3 (pyRound (hertz / FREQUENCY_CONTROL_WORD_HERTZ_FACTOR)).toNat, ?_, ?_⟩
  · unfold hertz_to_frequency_control_word
    rw [if_pos ⟨h0, h1⟩]
  · have hlt : (pyRound (hertz / FREQUENCY_CONTROL_WORD_HERTZ_FACTOR)).toNat < 2 ^ 24 := by
      omega
    unfold frequency_control_word_to_hertz
    rw [intFromBytesBE3_intToBytesBE3 hlt]
    have hcast : (((pyRound (hertz / FREQUENCY_CONTROL_WORD_HERTZ_FACTOR)).toNat : ℕ) : ℚ)
        = ((pyRound (hertz / FREQUENCY_CONTROL_WORD_HERTZ_FACTOR) : ℤ) : ℚ) := by
      have := Int.toNat_of_nonneg h0
      exact_mod_cast congrArg (fun z : ℤ => (z : ℚ)) this
    rw [hcast]
    have habs := pyRound_abs_le (hertz / FREQUENCY_CONTROL_WORD_HERTZ_FACTOR)
    have hexp : ((pyRound (hertz / FREQUENCY_CONTROL_WORD_HERTZ_FACTOR) : ℤ) : ℚ)
          * FREQUENCY_CONTROL_WORD_HERTZ_FACTOR - hertz
        = (((pyRound (hertz / FREQUENCY_CONTROL_WORD_HERTZ_FACTOR) : ℤ) : ℚ)
            - hertz / FREQUENCY_CONTROL_WORD_HERTZ_FACTOR)
          * FREQUENCY_CONTROL_WORD_HERTZ_FACTOR := by
      field_simp
    rw [show CRYSTAL_OSCILLATOR_FREQUENCY_HERTZ / 2 ^ 16 = FREQUENCY_CONTROL_WORD_HERTZ_FACTOR
        from rfl, hexp, abs_mul, abs_of_pos hF]
    calc |((pyRound (hertz / FREQUENCY_CONTROL_WORD_HERTZ_FACTOR) : ℤ) : ℚ)
          - hertz / FREQUENCY_CONTROL_WORD_HERTZ_FACTOR| * FREQUENCY_CONTROL_WORD_HERTZ_FACTOR
        ≤ (1/2) * FREQUENCY_CONTROL_WORD_HERTZ_FACTOR :=
          mul_le_mul_of_nonneg_right habs (le_of_lt hF)
      _ ≤ FREQUENCY_CONTROL_WORD_HERTZ_FACTOR := by linarith

/-- Witness for C6 at `hertz = 0`. -/
theorem c6_frequency_roundtrip_witness :
    0 ≤ pyRound ((0:ℚ) / FREQUENCY_CONTROL_WORD_HERTZ_FACTOR)
  ∧ pyRound ((0:ℚ) / FREQUENCY_CONTROL_WORD_HERTZ_FACTOR) < 2 ^ 24
  ∧ ∃ w, hertz_to_frequency_control_word 0 = some w
      ∧ |frequency_control_word_to_hertz w - 0|
          ≤ CRYSTAL_OSCILLATOR_FREQUENCY_HERTZ / 2 ^ 16 :=
  ⟨by norm_num [pyRound], by norm_num [pyRound],
    c6_frequency_roundtrip 0 (by norm_num [pyRound]) (by norm_num [pyRound])⟩

/-- Evaluation of the preamble encoder on an exact `3 * 2^k` length. -/
theorem spb_of_pow3 (L k : ℤ) (h1 : ¬ L < 1) (h3 : L % 3 = 0)
    (hq : (L:ℚ) / 3 = (2:ℚ) ^ k) (hk : ¬(2*k+1 < 0 ∨ 7 < 2*k+1)) :
    set_preamble_length_bytes L = .ok (2*k+1).toNat := by
  unfold set_preamble_length_bytes
  rw [if_neg h1, if_pos h3, hq, ratExactLog2_zpow, Option.map_some', Option.elim_some,
    if_neg hk]

/-- Evaluation of the preamble encoder on an exact `2 * 2^k` length that is
not a multiple of 3. -/
theorem spb_of_pow2 (L k : ℤ) (h1 : ¬ L < 1) (h3 : ¬(L % 3 = 0))
    (hq : (L:ℚ) / 2 = (2:ℚ) ^ k) (hk : ¬(2*k < 0 ∨ 7 < 2*k)) :
    set_preamble_length_bytes L = .ok (2*k).toNat := by
  unfold set_preamble_length_bytes
  rw [if_neg h1, if_neg h3, hq, ratExactLog2_zpow, Option.map_some', Option.elim_some,
    if_neg hk]

/-- C7: the preamble codec decodes a 3-bit index to
`2^(index >> 1) * (2 + (index & 1))` bytes, encoding that byte count
reproduces the index for all 8 indices, and encoding fails for every
requested length outside `{2, 3, 4, 6, 8, 12, 16, 24}` (lengths below 1
included). -/
theorem c7_preamble_length_codec (i : ℕ) (hi : i ≤ 7) (L : ℤ)
    (hL : L ∉ ([2, 3, 4, 6, 8, 12, 16, 24] : List ℤ)) :
    preamble_length_of_index i = 2 ^ (i >>> 1) * (2 + (i &&& 0b1))
  ∧ set_preamble_length_bytes ((preamble_length_of_index i : ℕ) : ℤ) = .ok i
  ∧ ∃ e, set_preamble_length_bytes L = .error e := by
  refine ⟨rfl, ?_, ?_⟩
  · interval_cases i
    · simpa using spb_of_pow2 2 0 (by decide) (by decide) (by norm_num) (by decide)
    · simpa using spb_of_pow3 3 0 (by decide) (by decide) (by norm_num) (by decide)
    · simpa using spb_of_pow2 4 1 (by decide) (by decide) (by norm_num) (by decide)
    · simpa using spb_of_pow3 6 1 (by decide) (by decide) (by norm_num) (by decide)
    · simpa using spb_of_pow2 8 2 (by decide) (by decide) (by norm_num) (by decide)
    · simpa using spb_of_pow3 12 2 (by decide) (by decide) (by norm_num) (by decide)
    · simpa using spb_of_pow2 16 3 (by decide) (by decide) (by norm_num) (by decide)
    · simpa using spb_of_pow3 24 3 (by decide) (by decide) (by norm_num) (by decide)
  · by_cases hL1 : L < 1
    · exact ⟨.invalidLength, by unfold set_preamble_length_bytes; rw [if_pos hL1]⟩
    · by_cases h3 : L % 3 = 0
      · cases hopt : ratExactLog2 ((L:ℚ) / 3) with
        | none =>
          exact ⟨.unsupportedLength, by
            unfold set_preamble_length_bytes
            rw [if_neg hL1, if_pos h3, hopt, Option.map_none', Option.elim_none]⟩
        | some k =>
          by_cases hk : 2*k+1 < 0 ∨ 7 < 2*k+1
          · exact ⟨.unsupportedLength, by
              unfold set_preamble_length_bytes
              rw [if_neg hL1, if_pos h3, hopt, Option.map_some', Option.elim_some, if_pos hk]⟩
          · exfalso
            have hq := ratExactLog2_eq_some hopt
            push_neg at hk
            have hk0 : 0 ≤ k := by omega
            have hk3 : k ≤ 3 := by omega
            rw [eq_div_iff (by norm_num : (3:ℚ) ≠ 0)] at hq
            obtain ⟨n, rfl⟩ : ∃ n : ℕ, k = (n:ℤ) := ⟨k.toNat, (Int.toNat_of_nonneg hk0).symm⟩
            rw [zpow_natCast] at hq
            have hLint : L = 2 ^ n * 3 := by exact_mod_cast hq.symm
            have hn : n ≤ 3 := by omega
            interval_cases n <;> exact hL (by rw [hLint]; decide)
      · cases hopt : ratExactLog2 ((L:ℚ) / 2) with
        | none =>
          exact ⟨.unsupportedLength, by
            unfold set_preamble_length_bytes
            rw [if_neg hL1, if_neg h3, hopt, Option.map_none', Option.elim_none]⟩
        | some k =>
          by_cases hk : 2*k < 0 ∨ 7 < 2*k
          · exact ⟨.unsupportedLength, by
              unfold set_preamble_length_bytes
              rw [if_neg hL1, if_neg h3, hopt, Option.map_some', Option.elim_some, if_pos hk]⟩
          · exfalso
            have hq := ratExactLog2_eq_some hopt
            push_neg at hk
            have hk0 : 0 ≤ k := by omega
            have hk3 : k ≤ 3 := by omega
            rw [eq_div_iff (by norm_num : (2:ℚ) ≠ 0)] at hq
            obtain ⟨n, rfl⟩ : ∃ n : ℕ, k = (n:ℤ) := ⟨k.toNat, (Int.toNat_of_nonneg hk0).symm⟩
            rw [zpow_natCast] at hq
            have hLint : L = 2 ^ n * 2 := by exact_mod_cast hq.symm
            have hn : n ≤ 3 := by omega
            interval_cases n <;> exact hL (by rw [hLint]; decide)

/-- Witness for C7 at index 5 (24 bytes... index 5 decodes to 12 bytes) and
the unsupported length 7. -/
theorem c7_preamble_length_codec_witness :
    ((5:ℕ) ≤ 7 ∧ (7:ℤ) ∉ ([2, 3, 4, 6, 8, 12, 16, 24] : List ℤ))
  ∧ (preamble_length_of_index 5 = 2 ^ (5 >>> 1) * (2 + (5 &&& 0b1))
     ∧ set_preamble_length_bytes ((preamble_length_of_index 5 : ℕ) : ℤ) = .ok 5
     ∧ ∃ e, set_preamble_length_bytes 7 = .error e) :=
  ⟨⟨by decide, by decide⟩, c7_preamble_length_codec 5 (by decide) 7 (by decide)⟩
